import Mathlib

/-!
Verification of the provider-scraper documentation pipeline
(`tools/provider-scraper/scraper/`): the `DocsArchive` store
(`storage.py`), sitemap discovery (`discovery.py`), the doc-URL filter and
`scrape_docs` orchestration (`base.py`), and markdown chunking
(`markdown.py`).

The Python code is shallowly embedded: file-system and HTTP effects become
explicit state / oracle parameters, `None` becomes `Option`, raised
exceptions become `Except` / `Option` results, and the external SHA-256
digest (`hashlib`) becomes an abstract function parameter.  All string
primitives used by the code (`strip`, `split`, `in`, `startswith`,
`endswith`, byte length) are re-implemented on `List Char` so that every
definition evaluates inside the kernel.
-/

/- ### String primitives (models of the Python `str` operations used) -/

/-- Whitespace test used by the model of Python `str.strip()`. -/
def isWS (c : Char) : Bool :=
  c = ' ' || c = '\t' || c = '\n' || c = '\r'

/-- Model of Python `str.strip()`: drop leading and trailing whitespace. -/
def trimS (s : String) : String :=
  String.mk (((s.data.dropWhile isWS).reverse.dropWhile isWS).reverse)

/-- Model of Python `str.rstrip("/")`: drop trailing slashes. -/
def rstripSlash (s : String) : String :=
  String.mk ((s.data.reverse.dropWhile (fun c => c = '/')).reverse)

/-- Model of Python `str.lower()` (ASCII case fold, as used on ASCII data). -/
def lowerS (s : String) : String :=
  String.mk (s.data.map Char.toLower)

/-- `isPrefixL a b` : list `a` is a prefix of list `b`. -/
def isPrefixL : List Char → List Char → Bool
  | [], _ => true
  | _ :: _, [] => false
  | a :: as, b :: bs => a = b && isPrefixL as bs

/-- Model of Python `str.startswith`. -/
def startsWithS (s pre : String) : Bool :=
  isPrefixL pre.data s.data

/-- Model of Python `str.endswith`. -/
def endsWithS (s suf : String) : Bool :=
  isPrefixL suf.data.reverse s.data.reverse

/-- `containsL needle hay` : model of Python `needle in hay` on char lists. -/
def containsL (needle : List Char) : List Char → Bool
  | [] => isPrefixL needle []
  | c :: rest => isPrefixL needle (c :: rest) || containsL needle rest

/-- Model of Python `needle in hay` for strings. -/
def strContains (hay needle : String) : Bool :=
  containsL needle.data hay.data

/-- Model of Python slicing `s[:n]` (first `n` characters). -/
def takeS (n : Nat) (s : String) : String :=
  String.mk (s.data.take n)

/-- Concatenation of a list of strings: model of Python `"".join`. -/
def concatAll : List String → String
  | [] => ""
  | s :: rest => s ++ concatAll rest

/-- Model of Python `"\n\n".join`. -/
def joinNN : List String → String
  | [] => ""
  | [s] => s
  | s :: rest => s ++ "\n\n" ++ joinNN rest

/-- Helper for `splitParas`: accumulate the current piece while scanning. -/
def splitParasGo (acc : List Char) : List Char → List String
  | [] => [String.mk acc]
  | '\n' :: '\n' :: rest => String.mk acc :: splitParasGo [] rest
  | c :: rest => splitParasGo (acc ++ [c]) rest

/-- Model of Python `str.split("\n\n")` (leftmost, non-overlapping). -/
def splitParas (s : String) : List String :=
  splitParasGo [] s.data

/-- Helper for `splitChar`. -/
def splitCharGo (sep : Char) (acc : List Char) : List Char → List String
  | [] => [String.mk acc]
  | c :: rest =>
    if c = sep then String.mk acc :: splitCharGo sep [] rest
    else splitCharGo sep (acc ++ [c]) rest

/-- Model of Python `str.split(sep)` for a one-character separator. -/
def splitChar (sep : Char) (s : String) : List String :=
  splitCharGo sep [] s.data

/-- Flatten a list of lists. -/
def flatL : List (List α) → List α
  | [] => []
  | l :: rest => l ++ flatL rest

/- ### Association lists: model of Python `dict` / directory contents -/

/-- Model of `dict` lookup (`d.get(k)` / `k in d`). -/
def assocFind (k : String) : List (String × α) → Option α
  | [] => none
  | (k2, v) :: rest => if k2 = k then some v else assocFind k rest

/-- Model of `dict` assignment `d[k] = v` (replace first binding or append). -/
def assocSet (k : String) (v : α) : List (String × α) → List (String × α)
  | [] => [(k, v)]
  | (k2, v2) :: rest =>
    if k2 = k then (k, v) :: rest else (k2, v2) :: assocSet k v rest

theorem assocFind_assocSet_self (k : String) (v : α) (l : List (String × α)) :
    assocFind k (assocSet k v l) = some v := by
  induction l with
  | nil => simp [assocSet, assocFind]
  | cons p rest ih =>
    by_cases h : p.1 = k
    · simp [assocSet, assocFind, h]
    · simp [assocSet, assocFind, h, ih]

theorem assocSet_ne_nil (k : String) (v : α) (l : List (String × α)) :
    assocSet k v l ≠ [] := by
  cases l with
  | nil => simp [assocSet]
  | cons p rest =>
    by_cases h : p.1 = k <;> simp [assocSet, h]

/- ### storage.py — `CacheEntry` and `DocsArchive` -/

/-- `storage.CacheEntry`: cache entry for a crawled URL
(`etag` is `Option` because Python stores `str | None`). -/
structure CacheEntry where
  filename : String
  etag : Option String
  content_hash : String
  crawled_at : String
deriving Repr, DecidableEq

/-- State of a `storage.DocsArchive` instance.  The in-memory cache dict,
the local `docs/` staging directory (existence flag plus its files as
filename-to-content bindings) and the optional `docs.zip` (its entries)
model the file system that the Python class reads and writes. -/
structure DocsArchive where
  cache : List (String × CacheEntry)
  docsDirExists : Bool
  docsFiles : List (String × String)
  zipFile : Option (List (String × String))
deriving Repr, DecidableEq

/-- A freshly initialised archive in an empty output directory
(`DocsArchive.__init__` with no existing zip: empty cache, empty `docs/`). -/
def DocsArchive.init : DocsArchive :=
  { cache := [], docsDirExists := true, docsFiles := [], zipFile := none }

/-- Python truthiness of the `str | None` ETag values in
`storage.DocsArchive.has_changed` (`if etag and entry.etag`). -/
def etagTruthy : Option String → Bool
  | none => false
  | some s => s ≠ ""

/-- `storage.DocsArchive.has_changed`.  `hash` abstracts
`storage.DocsArchive._content_hash` (SHA-256 hex digest truncated to 16
characters — an external `hashlib` primitive, modelled as a function
parameter). -/
def DocsArchive.has_changed (hash : String → String) (a : DocsArchive)
    (url : String) (etag : Option String) (content : String) : Bool :=
  match assocFind url a.cache with
  | none => true
  | some entry =>
    if etagTruthy etag && etagTruthy entry.etag then
      decide (etag ≠ entry.etag)
    else
      decide (hash content ≠ entry.content_hash)

/-- Keep alphanumerics, `_` and `-`; the first `re.sub` in
`storage.DocsArchive._safe_filename` replaces every other char with `-`. -/
def safeChar (c : Char) : Char :=
  if c.isAlphanum || c = '_' || c = '-' then c else '-'

/-- Second `re.sub` in `_safe_filename`: collapse hyphen runs
(`lastH` records whether the previously kept char was a hyphen). -/
def collapseHGo (lastH : Bool) : List Char → List Char
  | [] => []
  | c :: rest =>
    if c = '-' then
      if lastH then collapseHGo true rest
      else '-' :: collapseHGo true rest
    else c :: collapseHGo false rest

/-- Model of Python `str.strip("-")`. -/
def stripHyphens (l : List Char) : List Char :=
  ((l.dropWhile (fun c => c = '-')).reverse.dropWhile (fun c => c = '-')).reverse

/-- `storage.DocsArchive._safe_filename`. -/
def safeFilename (url topic : String) : String :=
  let base :=
    if topic ≠ "" then topic
    else
      let parts := splitChar '/' (rstripSlash url)
      if parts.length > 3 then parts.getLastD ("") else "index"
  let safe := stripHyphens (collapseHGo false (base.data.map safeChar))
  (if safe = [] then "page" else String.mk safe) ++ ".md"

/-- `storage.DocsArchive.write`.  Returns `none` when the local staging
directory is missing (Python would raise on `write_text`); otherwise the
updated archive and the filename used.  `now` stands for
`datetime.now(timezone.utc).isoformat()`. -/
def DocsArchive.write (hash : String → String) (a : DocsArchive)
    (url content topic : String) (etag : Option String) (now : String) :
    Option (DocsArchive × String) :=
  let filename := safeFilename url topic
  let entry : CacheEntry :=
    { filename := filename, etag := etag, content_hash := hash content,
      crawled_at := now }
  if a.docsDirExists then
    some ({ a with
              cache := assocSet url entry a.cache,
              docsFiles := assocSet filename content a.docsFiles },
          filename)
  else
    none

/-- `storage.DocsArchive.finalize`: zip the staging directory's files and,
unless `keep_local`, remove the staging directory. -/
def DocsArchive.finalize (a : DocsArchive) (keep_local : Bool) : DocsArchive :=
  if !a.docsDirExists then a
  else if a.docsFiles = [] then a
  else
    let a2 := { a with zipFile := some a.docsFiles }
    if keep_local then a2
    else { a2 with docsDirExists := false, docsFiles := [] }

/-- `storage.DocsArchive.read`: local `docs/` dir first, then the zip. -/
def DocsArchive.read (a : DocsArchive) (url : String) : Option String :=
  match assocFind url a.cache with
  | none => none
  | some entry =>
    match (if a.docsDirExists then assocFind entry.filename a.docsFiles
           else none) with
    | some content => some content
    | none =>
      match a.zipFile with
      | none => none
      | some entries => assocFind entry.filename entries

/- ### discovery.py — sitemap parsing and discovery -/

/-- `discovery.DiscoveryError`. -/
structure DiscoveryError where
  msg : String
deriving Repr, DecidableEq

/-- An element of the parsed XML document, as inspected by
`discovery.parse_sitemap_xml`: its namespace-local tag (the `{*}` wildcard
in `findall` matches any namespace, so only local names matter) and its
direct children as (local tag, text) pairs.  A parsed document is the list
of the root's proper descendants in document order — exactly what
`root.findall` with a `.//` path traverses. -/
structure XmlNode where
  tag : String
  childTexts : List (String × Option String)
deriving Repr, DecidableEq

/-- `root.findall` for the paths used in `parse_sitemap_xml`
(descendant elements with local tag `name`, their `loc` children's texts,
in traversal order). -/
def findallLocTexts (doc : List XmlNode) (name : String) : List (Option String) :=
  flatL (doc.map (fun n =>
    if n.tag = name then
      n.childTexts.filterMap (fun ct =>
        if ct.1 = "loc" then some ct.2 else none)
    else []))

/-- Loop body of `parse_sitemap_xml`: keep a `<loc>` text only when it is
truthy and not whitespace-only, and append its stripped form. -/
def keepText : Option String → Option String
  | none => none
  | some t => if t = "" then none else if trimS t = "" then none else some (trimS t)

/-- `discovery.parse_sitemap_xml`.  `fromstring` abstracts
`xml.etree.ElementTree.fromstring`, the external XML parser: `none`
models a raised `ParseError` (caught and turned into `[]`). -/
def parse_sitemap_xml (fromstring : String → Option (List XmlNode))
    (xml_content : String) : List String :=
  if xml_content = "" then []
  else
    match fromstring xml_content with
    | none => []
    | some root =>
      (findallLocTexts root ("sitemap")).filterMap keepText
        ++ (findallLocTexts root ("url")).filterMap keepText

/-- Outcome of a `client.get(url)` call: an HTTP response or a raised
exception (`httpx.HTTPError` etc.). -/
inductive FetchOutcome where
  | exn : FetchOutcome
  | resp : Nat → String → FetchOutcome
deriving Repr, DecidableEq

/-- The rate-limit-page check in `discovery._fetch_sitemap_content` and
`discovery._fetch_child_sitemaps`:
`"429" in content[:500] or "Too Many Requests" in content[:500]`. -/
def rateLimitPage (content : String) : Bool :=
  strContains (takeS 500 content) ("429")
    || strContains (takeS 500 content) ("Too Many Requests")

/-- Rejoin the tail of a `split(":")` — models Python `split(":", 1)[1]`. -/
def joinColon : List String → String
  | [] => ""
  | [s] => s
  | s :: rest => s ++ ":" ++ joinColon rest

/-- `discovery._extract_sitemaps_from_robots` body for one line. -/
def robotsLineSitemap (line : String) : Option String :=
  let l := trimS line
  if startsWithS (lowerS l) ("sitemap:") then
    match splitCharGo ':' [] l.data with
    | [] => none
    | _ :: rest => some (trimS (joinColon rest))
  else none

/-- Model of Python `str.splitlines()` for the `\n`-separated robots.txt
content handled here (no trailing empty line). -/
def splitLinesGo (acc : List Char) : List Char → List String
  | [] => if acc = [] then [] else [String.mk acc]
  | '\n' :: rest => String.mk acc :: splitLinesGo [] rest
  | c :: rest => splitLinesGo (acc ++ [c]) rest

/-- `discovery._extract_sitemaps_from_robots`. -/
def extractSitemapsFromRobots (robots_content : String) : List String :=
  (splitLinesGo [] robots_content.data).filterMap robotsLineSitemap

/-- Model of `urllib.parse.urljoin(base, path)` for the absolute-path
references (`/sitemap.xml`, …) used in `discover_sitemap`: keep the
scheme and host of `base` and append `path`. -/
def originGo (acc : List Char) : List Char → List Char
  | [] => acc
  | ':' :: '/' :: '/' :: rest =>
    acc ++ [':', '/', '/'] ++ rest.takeWhile (fun c => c ≠ '/')
  | c :: rest => originGo (acc ++ [c]) rest

/-- See `originGo`. -/
def urljoinAbs (base path : String) : String :=
  String.mk (originGo [] base.data) ++ path

/-- `discovery.SITEMAP_PATHS`. -/
def SITEMAP_PATHS : List String :=
  ["/sitemap.xml", "/sitemap_index.xml", "/sitemap1.xml", "/robots.txt"]

/-- `discovery._fetch_sitemap_content`: returns `(content, status)` pairs
exactly as the Python function does, with `client` as the HTTP oracle. -/
def fetchSitemapContent (client : String → FetchOutcome)
    (sitemap_url path : String) : Option String × Option Nat :=
  match client sitemap_url with
  | .exn => (none, none)
  | .resp status body =>
    if status = 429 then (none, some 429)
    else if 500 ≤ status then (none, some status)
    else if status ≠ 200 then (none, some status)
    else if rateLimitPage body then (none, some 429)
    else if path = "/robots.txt" then
      match extractSitemapsFromRobots body with
      | [] => (none, none)
      | first :: _ =>
        match client first with
        | .exn => (none, none)
        | .resp st2 b2 =>
          if st2 = 429 then (none, some 429)
          else if 500 ≤ st2 then (none, some st2)
          else if st2 ≠ 200 then (none, some st2)
          else if rateLimitPage b2 then (none, some 429)
          else (some b2, some 200)
    else (some body, some 200)

/-- Loop of `discovery._fetch_child_sitemaps`, accumulating `all_urls`. -/
def fetchChildGo (client : String → FetchOutcome)
    (fromstring : String → Option (List XmlNode)) :
    List String → List String → Except DiscoveryError (List String)
  | [], acc => .ok acc
  | u :: us, acc =>
    match client u with
    | .exn => fetchChildGo client fromstring us acc
    | .resp st body =>
      if st = 429 then
        .error ⟨"Rate limited while fetching child sitemap: " ++ u⟩
      else if st ≠ 200 then fetchChildGo client fromstring us acc
      else if rateLimitPage body then
        .error ⟨"Rate limited while fetching child sitemap: " ++ u⟩
      else fetchChildGo client fromstring us
        (acc ++ parse_sitemap_xml fromstring body)

/-- `discovery._fetch_child_sitemaps`. -/
def fetchChildSitemaps (client : String → FetchOutcome)
    (fromstring : String → Option (List XmlNode)) (sitemap_urls : List String) :
    Except DiscoveryError (Option (List String)) :=
  match fetchChildGo client fromstring sitemap_urls [] with
  | .error e => .error e
  | .ok all_urls => .ok (if all_urls = [] then none else some all_urls)

/-- Python truthiness-plus-comparison `status and status >= 500` used in
`discover_sitemap`. -/
def statusIs5xx : Option Nat → Bool
  | none => false
  | some s => 500 ≤ s

/-- The `for path in SITEMAP_PATHS` loop of `discovery.discover_sitemap`. -/
def discoverLoop (client : String → FetchOutcome)
    (fromstring : String → Option (List XmlNode)) (base_url : String) :
    List String → Except DiscoveryError (Option (List String))
  | [] => .ok none
  | path :: rest =>
    let sitemap_url := urljoinAbs base_url path
    let cs := fetchSitemapContent client sitemap_url path
    if cs.2 = some 429 then
      .error ⟨"Rate limited while fetching sitemap from " ++ base_url⟩
    else if statusIs5xx cs.2 then
      .error ⟨"Server error while fetching sitemap from " ++ base_url⟩
    else
      match cs.1 with
      | none => discoverLoop client fromstring base_url rest
      | some content =>
        if content = "" then discoverLoop client fromstring base_url rest
        else
          let urls := parse_sitemap_xml fromstring content
          if urls = [] then discoverLoop client fromstring base_url rest
          else if urls.all (fun u => endsWithS u (".xml")) then
            fetchChildSitemaps client fromstring urls
          else .ok (some urls)

/-- `discovery.discover_sitemap`. -/
def discover_sitemap (client : String → FetchOutcome)
    (fromstring : String → Option (List XmlNode)) (base_url : String) :
    Except DiscoveryError (Option (List String)) :=
  discoverLoop client fromstring base_url SITEMAP_PATHS

/- ### base.py — doc-URL filtering and `scrape_docs` -/

/-- `base.DocsScrapeError`. -/
structure DocsScrapeError where
  msg : String
deriving Repr, DecidableEq

/-- The `for url in urls` loop of `base.BaseScraper._filter_doc_urls`:
`seen` is the Python `set`, `base_url` is already slash-stripped. -/
def filterGo (base_url : String) (seen : List String) :
    List String → List String
  | [] => []
  | url :: rest =>
    let normalized := rstripSlash url
    if startsWithS normalized base_url && !(seen.contains normalized) then
      url :: filterGo base_url (normalized :: seen) rest
    else
      filterGo base_url seen rest

/-- `base.BaseScraper._filter_doc_urls` with the resolved
`docs_base_url or provider_website` as first argument. -/
def filter_doc_urls (docs_base_url : String) (urls : List String) :
    List String :=
  filterGo (rstripSlash docs_base_url) [] urls

/-- Second phase of `filterSpecModel`: deduplicate by slash-stripped form,
keeping first occurrences. -/
def dedupByNorm (seen : List String) : List String → List String
  | [] => []
  | u :: rest =>
    if seen.contains (rstripSlash u) then dedupByNorm seen rest
    else u :: dedupByNorm (rstripSlash u :: seen) rest

/-- Reference restatement of what `_filter_doc_urls` actually implements,
written in the spec's shape (a filter step followed by a deduplication
step): keep the URLs whose trailing-slash-stripped form starts with the
trailing-slash-stripped base URL, then deduplicate by stripped form. -/
def filterSpecModel (docs_base_url : String) (urls : List String) :
    List String :=
  dedupByNorm []
    (urls.filter (fun u =>
      startsWithS (rstripSlash u) (rstripSlash docs_base_url)))

/-- `base.BaseScraper._extract_topic`. -/
def extract_topic (url title : String) : String :=
  if title ≠ "" && title.length < 100 then title
  else
    let parts := splitChar '/' (rstripSlash url)
    if parts.length > 3 then parts.getLastD ("") else "index"

/-- The fields of a Crawl4AI result that `base.BaseScraper.scrape_docs`
reads: `error_message`, `success`, `markdown.fit_markdown`,
`markdown.raw_markdown`, `metadata.get("title", "")`,
`metadata.get("etag")`. -/
structure CrawlResult where
  error_message : Option String
  success : Bool
  fit_markdown : Option String
  raw_markdown : Option String
  title : String
  etag : Option String
deriving Repr, DecidableEq

/-- One `crawler.arun` call: a result, or a raised exception (caught by
the generic `except Exception` and counted as an error). -/
inductive CrawlOutcome where
  | exn : CrawlOutcome
  | res : CrawlResult → CrawlOutcome
deriving Repr, DecidableEq

/-- The rate-limit test on `result.error_message` in `scrape_docs`
(`if result.error_message:` then `"429" in msg or "rate" in msg.lower()`). -/
def rateLimitedMsg : Option String → Bool
  | none => false
  | some m =>
    if m = "" then false
    else strContains m ("429") || strContains (lowerS m) ("rate")

/-- Content selection in `scrape_docs`: prefer `fit_markdown` when its
stripped length is at least 100, fall back to a non-blank `raw_markdown`,
else no usable content (`none`). -/
def contentOf (r : CrawlResult) : Option String :=
  let fit_md := r.fit_markdown.getD ("")
  let raw_md := r.raw_markdown.getD ("")
  if (trimS fit_md).length ≥ 100 then some fit_md
  else if trimS raw_md ≠ "" then some raw_md
  else none

/-- The crawl loop of `base.BaseScraper.scrape_docs`.  State:
archive, `written_count`, `error_count`, and the trace of URLs for which
`archive.write` was called.  The returned pair is (result, write trace);
a `.error` result models the raised exception. -/
def scrapeGo (hash : String → String) (now : String) :
    DocsArchive → Nat → Nat → List String → List (String × CrawlOutcome) →
    (Except DocsScrapeError (Nat × Nat × DocsArchive)) × List String
  | a, written, errors, trace, [] => (.ok (written, errors, a), trace)
  | a, written, errors, trace, (_, .exn) :: rest =>
    scrapeGo hash now a written (errors + 1) trace rest
  | a, written, errors, trace, (url, .res r) :: rest =>
    if rateLimitedMsg r.error_message then
      (.error ⟨"Rate limited while scraping docs: " ++ url⟩, trace)
    else if !r.success then
      scrapeGo hash now a written (errors + 1) trace rest
    else
      match contentOf r with
      | none => scrapeGo hash now a written (errors + 1) trace rest
      | some content =>
        let topic := extract_topic url r.title
        if !DocsArchive.has_changed hash a url r.etag content then
          scrapeGo hash now a written errors trace rest
        else
          match DocsArchive.write hash a url content topic r.etag now with
          | some (a2, _) =>
            scrapeGo hash now a2 (written + 1) errors (trace ++ [url]) rest
          | none => scrapeGo hash now a written (errors + 1) trace rest

/-- `base.BaseScraper.scrape_docs`, starting after URL discovery: `items`
pairs each discovered URL with its crawl outcome.  Returns the
result (written count and final archive, or the raised error) together
with the trace of `archive.write` calls. -/
def scrape_docs (hash : String → String) (now : String) (a : DocsArchive)
    (items : List (String × CrawlOutcome)) :
    (Except DocsScrapeError (Nat × DocsArchive)) × List String :=
  if items = [] then (.error ⟨"No doc URLs found"⟩, [])
  else
    match scrapeGo hash now a 0 0 [] items with
    | (.error e, trace) => (.error e, trace)
    | (.ok (written, errors, a2), trace) =>
      if errors = items.length && written = 0 then
        (.error ⟨"All doc pages failed to scrape"⟩, trace)
      else (.ok (written, a2), trace)

/-- A crawl outcome that "fails to produce usable content" in the sense of
the all-failed test: an exception, or a non-rate-limited result that is
unsuccessful or yields no markdown content. -/
def failedOutcome : CrawlOutcome → Bool
  | .exn => true
  | .res r =>
    !(rateLimitedMsg r.error_message)
      && (!r.success || contentOf r = none)

/- ### markdown.py — `MarkdownDoc`, frontmatter and chunking -/

/-- `markdown.MarkdownDoc`.  `scraped_at` holds the
`strftime("%Y-%m-%d")`-formatted date (the only use the chunker makes of
the datetime). -/
structure MarkdownDoc where
  content : String
  source_url : String
  provider : String
  topic : String
  scraped_at : String
deriving Repr, DecidableEq

/-- `markdown.format_markdown_with_frontmatter`. -/
def format_markdown_with_frontmatter (doc : MarkdownDoc) : String :=
  "---\nsource: " ++ doc.source_url ++ "\nscraped: " ++ doc.scraped_at
    ++ "\nprovider: " ++ doc.provider ++ "\ntopic: " ++ doc.topic
    ++ "\n---\n\n" ++ doc.content

/-- `markdown.MAX_CHUNK_SIZE` (20KB limit for Chatwoot). -/
def MAX_CHUNK_SIZE : Nat := 20 * 1024

/-- Leftmost-match attempt of the regex `\n## [^\n]+\n` at the head of the
list: on success returns the matched separator and the remainder. -/
def tryMatchH2 : List Char → Option (List Char × List Char)
  | '\n' :: '#' :: '#' :: ' ' :: rest =>
    match rest.dropWhile (fun c => c ≠ '\n') with
    | '\n' :: rest2 =>
      if rest.takeWhile (fun c => c ≠ '\n') = [] then none
      else
        some ('\n' :: '#' :: '#' :: ' '
          :: (rest.takeWhile (fun c => c ≠ '\n') ++ ['\n']), rest2)
    | _ => none
  | _ => none

/-- Scan for `re.split(r"(\n## [^\n]+\n)", content)`: alternating
non-separator / separator pieces, separators retained.  `fuel` only bounds
the recursion; with `fuel ≥ length` it never runs out. -/
def splitH2Go : Nat → List Char → List Char → List (List Char)
  | 0, acc, cs => [acc ++ cs]
  | _ + 1, acc, [] => [acc]
  | fuel + 1, acc, c :: cs =>
    match tryMatchH2 (c :: cs) with
    | some (m, rest) => acc :: m :: splitH2Go fuel [] rest
    | none => splitH2Go fuel (acc ++ [c]) cs

/-- `re.split(r"(\n## [^\n]+\n)", s)` with capturing group. -/
def splitH2 (s : String) : List String :=
  (splitH2Go s.data.length [] s.data).map (fun l => String.mk l)

/-- The loop state of `markdown.chunk_markdown`: emitted chunks,
`current_content`, `current_size`, `chunk_num`. -/
structure ChunkState where
  chunks : List MarkdownDoc
  current_content : List String
  current_size : Nat
  chunk_num : Nat
deriving Repr, DecidableEq

/-- A flushed chunk: same metadata, ` (Part N)` topic suffix. -/
def mkChunk (doc : MarkdownDoc) (content : String) (num : Nat) : MarkdownDoc :=
  { doc with content := content,
             topic := doc.topic ++ " (Part " ++ toString num ++ ")" }

/-- The inner `for para in paragraphs` loop of `chunk_markdown` (flushes
with `"\n\n".join`, then appends the paragraph unconditionally). -/
def processParas (doc : MarkdownDoc) (max_size fm : Nat) :
    ChunkState → List String → ChunkState
  | st, [] => st
  | st, para :: rest =>
    let para_size := para.utf8ByteSize
    let st2 :=
      if st.current_size + para_size + fm > max_size then
        if st.current_content ≠ [] then
          { chunks := st.chunks
              ++ [mkChunk doc (joinNN st.current_content) st.chunk_num],
            current_content := [], current_size := 0,
            chunk_num := st.chunk_num + 1 }
        else st
      else st
    processParas doc max_size fm
      { st2 with current_content := st2.current_content ++ [para],
                 current_size := st2.current_size + para_size }
      rest

/-- The `for section in sections` body of `chunk_markdown` (flushes with
`"".join`). -/
def processSection (doc : MarkdownDoc) (max_size fm : Nat)
    (st : ChunkState) (sec : String) : ChunkState :=
  let section_size := sec.utf8ByteSize
  if section_size + fm > max_size then
    let st2 :=
      if st.current_content ≠ [] then
        { chunks := st.chunks
            ++ [mkChunk doc (concatAll st.current_content) st.chunk_num],
          current_content := [], current_size := 0,
          chunk_num := st.chunk_num + 1 }
      else st
    processParas doc max_size fm st2 (splitParas sec)
  else if st.current_size + section_size + fm > max_size then
    let st2 :=
      if st.current_content ≠ [] then
        { chunks := st.chunks
            ++ [mkChunk doc (concatAll st.current_content) st.chunk_num],
          current_content := [], current_size := 0,
          chunk_num := st.chunk_num + 1 }
      else st
    { st2 with current_content := [sec], current_size := section_size }
  else
    { st with current_content := st.current_content ++ [sec],
              current_size := st.current_size + section_size }

/-- The frontmatter overhead estimated in `chunk_markdown`
(`len(format(doc)) - len(doc.content)` in UTF-8 bytes). -/
def fmSize (doc : MarkdownDoc) : Nat :=
  (format_markdown_with_frontmatter doc).utf8ByteSize
    - doc.content.utf8ByteSize

/-- `markdown.chunk_markdown`. -/
def chunk_markdown (doc : MarkdownDoc) (max_size : Nat) : List MarkdownDoc :=
  let full_content := format_markdown_with_frontmatter doc
  if full_content.utf8ByteSize ≤ max_size then [doc]
  else
    let sections := splitH2 doc.content
    let fm := fmSize doc
    let st := sections.foldl (processSection doc max_size fm)
      { chunks := [], current_content := [], current_size := 0,
        chunk_num := 1 }
    if st.current_content ≠ [] then
      let topic :=
        if st.chunk_num > 1 then
          doc.topic ++ " (Part " ++ toString st.chunk_num ++ ")"
        else doc.topic
      st.chunks
        ++ [{ doc with content := concatAll st.current_content,
                       topic := topic }]
    else st.chunks

/- ### Claim theorems: storage.py -/

/-- C4: for a cached URL whose stored ETag is a non-empty `E1`,
`has_changed(url, E1, c)` is `false` and `has_changed(url, E2, c)` with a
non-empty `E2 ≠ E1` is `true`, independently of the content; for a URL
absent from the cache `has_changed` is `true`; and when either side's
ETag is missing (Python-falsy), the result is exactly inequality of the
content hashes. -/
theorem has_changed_precedence (hash : String → String) (a : DocsArchive)
    (url : String) :
    (∀ entry, assocFind url a.cache = some entry →
      (∀ E1 c1, entry.etag = some E1 → E1 ≠ "" →
        DocsArchive.has_changed hash a url (some E1) c1 = false)
      ∧ (∀ E1 E2 c2, entry.etag = some E1 → E1 ≠ "" → E2 ≠ "" → E2 ≠ E1 →
        DocsArchive.has_changed hash a url (some E2) c2 = true)
      ∧ (∀ etag content, (etagTruthy etag && etagTruthy entry.etag) = false →
        DocsArchive.has_changed hash a url etag content
          = decide (hash content ≠ entry.content_hash)))
    ∧ (assocFind url a.cache = none →
      ∀ etag content, DocsArchive.has_changed hash a url etag content = true) := by
  constructor
  · intro entry hfind
    refine ⟨?_, ?_, ?_⟩
    · intro E1 c1 he hne
      simp [DocsArchive.has_changed, hfind, etagTruthy, he, hne]
    · intro E1 E2 c2 he hne2 hne1 hne
      simp [DocsArchive.has_changed, hfind, etagTruthy, he, hne2, hne1, hne]
    · intro etag content hf
      simp [DocsArchive.has_changed, hfind, hf]
  · intro hfind etag content
    simp [DocsArchive.has_changed, hfind]

/-- A trivial concrete stand-in for the abstract content-hash parameter,
used by the concrete witnesses. -/
def hashId : String → String := fun s => s

/-- Concrete cache entry for the C4 witness. -/
def eC4 : CacheEntry :=
  { filename := "f.md", etag := some ("E1"), content_hash := "h1",
    crawled_at := "t" }

/-- Concrete archive for the C4 witness. -/
def aC4 : DocsArchive :=
  { cache := [("u", eC4)], docsDirExists := true, docsFiles := [],
    zipFile := none }

/-- Witness for C4 at a concrete archive. -/
theorem has_changed_precedence_witness :
    DocsArchive.has_changed hashId aC4 ("u") (some ("E1")) ("c1") = false
    ∧ DocsArchive.has_changed hashId aC4 ("u") (some ("E2")) ("c2") = true
    ∧ DocsArchive.has_changed hashId aC4 ("u") none ("zz")
        = decide (hashId ("zz") ≠ eC4.content_hash)
    ∧ DocsArchive.has_changed hashId aC4 ("v") none ("c") = true := by
  refine ⟨?_, ?_, ?_, ?_⟩
  · exact ((has_changed_precedence hashId aC4 ("u")).1 eC4 rfl).1 ("E1") ("c1")
      rfl (by decide)
  · exact ((has_changed_precedence hashId aC4 ("u")).1 eC4 rfl).2.1 ("E1")
      ("E2") ("c2") rfl (by decide) (by decide) (by decide)
  · exact ((has_changed_precedence hashId aC4 ("u")).1 eC4 rfl).2.2 none
      ("zz") (by decide)
  · exact (has_changed_precedence hashId aC4 ("v")).2 rfl none ("c")

/-- C10: immediately after a successful
`write(url, content, topic, etag)`, `has_changed(url, etag, content)` is
`false`, for every `etag` including `None`. -/
theorem write_then_unchanged (hash : String → String) (a : DocsArchive)
    (url content topic now : String) (etag : Option String)
    (a2 : DocsArchive) (fn : String)
    (h : DocsArchive.write hash a url content topic etag now = some (a2, fn)) :
    DocsArchive.has_changed hash a2 url etag content = false := by
  unfold DocsArchive.write at h
  by_cases hd : a.docsDirExists
  · simp [hd] at h
    obtain ⟨ha2, hfn⟩ := h
    subst ha2
    simp only [DocsArchive.has_changed, assocFind_assocSet_self]
    by_cases hb : (etagTruthy etag && etagTruthy etag) = true <;> simp [hb]
  · simp [hd] at h

/-- Concrete post-write archive for the C10 witness. -/
def aC10w : DocsArchive :=
  { cache := [("https://x.com/a/b",
      { filename := "topic.md", etag := some ("E"), content_hash := "body",
        crawled_at := "t" })],
    docsDirExists := true, docsFiles := [("topic.md", "body")],
    zipFile := none }

/-- Witness for C10 at a concrete write. -/
theorem write_then_unchanged_witness :
    DocsArchive.has_changed hashId aC10w ("https://x.com/a/b") (some ("E"))
      ("body") = false :=
  write_then_unchanged hashId DocsArchive.init ("https://x.com/a/b") ("body")
    ("topic") ("t") (some ("E")) aC10w ("topic.md") (by decide)

/-- C6: after `write(url, X, topic)`, `read(url)` returns `X`; and after a
subsequent `finalize(keep_local=False)` (staging directory removed),
`read(url)` still returns `X` from the packaged zip. -/
theorem archive_roundtrip (hash : String → String) (a : DocsArchive)
    (url X topic now : String) (etag : Option String)
    (a2 : DocsArchive) (fn : String)
    (h : DocsArchive.write hash a url X topic etag now = some (a2, fn)) :
    DocsArchive.read a2 url = some X
    ∧ DocsArchive.read (DocsArchive.finalize a2 false) url = some X := by
  unfold DocsArchive.write at h
  by_cases hd : a.docsDirExists
  · simp [hd] at h
    obtain ⟨ha2, hfn⟩ := h
    subst ha2
    constructor
    · simp [DocsArchive.read, assocFind_assocSet_self, hd]
    · simp [DocsArchive.finalize, DocsArchive.read, assocFind_assocSet_self,
        hd, assocSet_ne_nil]
  · simp [hd] at h

/-- Concrete post-write archive for the C6 witness. -/
def aC6w : DocsArchive :=
  { cache := [("https://x.com/a/b",
      { filename := "topic.md", etag := none, content_hash := "X",
        crawled_at := "t" })],
    docsDirExists := true, docsFiles := [("topic.md", "X")],
    zipFile := none }

/-- Witness for C6 at a concrete write on a fresh archive. -/
theorem archive_roundtrip_witness :
    DocsArchive.read aC6w ("https://x.com/a/b") = some ("X")
    ∧ DocsArchive.read (DocsArchive.finalize aC6w false) ("https://x.com/a/b")
        = some ("X") :=
  archive_roundtrip hashId DocsArchive.init ("https://x.com/a/b") ("X")
    ("topic") ("t") none aC6w ("topic.md") (by decide)

/- ### Claim theorems: base.py `_filter_doc_urls` -/

/-- The single-pass filter loop equals filter-then-deduplicate. -/
theorem filterGo_eq_dedup (b : String) (l : List String) :
    ∀ seen, filterGo b seen l
      = dedupByNorm seen (l.filter (fun u => startsWithS (rstripSlash u) b)) := by
  induction l with
  | nil => intro seen; simp [filterGo, dedupByNorm]
  | cons u rest ih =>
    intro seen
    by_cases hp : startsWithS (rstripSlash u) b
    · by_cases hc : seen.contains (rstripSlash u)
      · simp [filterGo, hp, hc, dedupByNorm, ih]
      · simp [filterGo, hp, hc, dedupByNorm, ih]
    · simp [filterGo, hp, ih]

/-- C3 (amended): `_filter_doc_urls` retains exactly the input URLs whose
trailing-slash-stripped form starts with the trailing-slash-stripped docs
base URL — there is no doc-keyword test and no case folding — and
deduplicates the retained URLs by their stripped form, keeping first
occurrences. -/
theorem filter_doc_urls_prefix_dedup (docs_base_url : String)
    (urls : List String) :
    filter_doc_urls docs_base_url urls = filterSpecModel docs_base_url urls :=
  filterGo_eq_dedup (rstripSlash docs_base_url) urls []

/-- C3 (counterexample): a URL whose path contains the doc-like keyword
`help` but which does not start with the docs base URL is dropped, not
retained as the claim asserts. -/
theorem filter_drops_keyword_url :
    filter_doc_urls ("https://docs.x.com") (["https://x.com/help/page"]) = []
    ∧ strContains (lowerS ("https://x.com/help/page")) ("help") = true :=
  ⟨by decide, by decide⟩

/- ### Claim theorems: discovery.py `parse_sitemap_xml` -/

/-- A kept `<loc>` text is the non-empty stripped form of the element's
text. -/
theorem keepText_some {o : Option String} {u : String}
    (h : keepText o = some u) : ∃ t, u = trimS t ∧ trimS t ≠ "" := by
  cases o with
  | none => simp [keepText] at h
  | some t =>
    by_cases h1 : t = ""
    · simp [keepText, h1] at h
    · by_cases h2 : trimS t = ""
      · simp [keepText, h1, h2] at h
      · simp [keepText, h1, h2] at h
        exact ⟨t, h.symm, h2⟩

/-- C9: `parse_sitemap_xml` is total — the empty string yields `[]`, a
parse failure (raised `ParseError`, modelled by `fromstring` returning
`none`) yields `[]` — and every retained URL is the whitespace-trimmed
form of a `<loc>` text that was not empty or whitespace-only. -/
theorem parse_sitemap_safe (fromstring : String → Option (List XmlNode))
    (xml_content : String) :
    parse_sitemap_xml fromstring ("") = []
    ∧ (fromstring xml_content = none →
        parse_sitemap_xml fromstring xml_content = [])
    ∧ ∀ u ∈ parse_sitemap_xml fromstring xml_content,
        ∃ t, u = trimS t ∧ trimS t ≠ "" := by
  refine ⟨by simp [parse_sitemap_xml], ?_, ?_⟩
  · intro h
    by_cases he : xml_content = ""
    · simp [parse_sitemap_xml, he]
    · simp [parse_sitemap_xml, he, h]
  · intro u hu
    by_cases he : xml_content = ""
    · simp [parse_sitemap_xml, he] at hu
    · simp only [parse_sitemap_xml, he, if_neg] at hu
      cases hf : fromstring xml_content with
      | none => simp [hf] at hu
      | some root =>
        simp only [hf] at hu
        rcases List.mem_append.1 hu with hm | hm
        · obtain ⟨o, _, ho⟩ := List.mem_filterMap.1 hm
          exact keepText_some ho
        · obtain ⟨o, _, ho⟩ := List.mem_filterMap.1 hm
          exact keepText_some ho

/-- Concrete parser oracle for the C9 witness: one urlset document with a
padded `<loc>`, a whitespace-only `<loc>` and a text-less `<loc>`. -/
def fromstring9 : String → Option (List XmlNode) := fun s =>
  if s = "X9" then
    some [{ tag := "url",
            childTexts := [("loc", some ("  https://e.com/p  ")),
                           ("loc", some ("   ")), ("loc", none)] }]
  else none

/-- Witness for C9 at concrete inputs. -/
theorem parse_sitemap_safe_witness :
    parse_sitemap_xml fromstring9 ("") = []
    ∧ parse_sitemap_xml fromstring9 ("<bad") = []
    ∧ (∃ t, "https://e.com/p" = trimS t ∧ trimS t ≠ "") := by
  refine ⟨(parse_sitemap_safe fromstring9 ("")).1, ?_, ?_⟩
  · exact (parse_sitemap_safe fromstring9 ("<bad")).2.1 (by decide)
  · exact (parse_sitemap_safe fromstring9 ("X9")).2.2 ("https://e.com/p")
      (by decide)

/- ### Claim theorems: discovery.py `discover_sitemap` -/

/-- C2 (amended): a 5xx status on a top-level sitemap fetch makes
`discover_sitemap` raise `DiscoveryError`, but a child-sitemap fetch
returning 5xx is logged and skipped — the child loop continues unchanged
(only a 429 is fatal there). -/
theorem discover_5xx_behavior (client : String → FetchOutcome)
    (fromstring : String → Option (List XmlNode)) :
    (∀ base path rest s,
      (fetchSitemapContent client (urljoinAbs base path) path).2 = some s →
      500 ≤ s →
      ∃ e, discoverLoop client fromstring base (path :: rest)
        = Except.error e)
    ∧ (∀ u us s b, client u = FetchOutcome.resp s b → 500 ≤ s →
      fetchChildSitemaps client fromstring (u :: us)
        = fetchChildSitemaps client fromstring us) := by
  constructor
  · intro base path rest s hs h5
    refine ⟨⟨"Server error while fetching sitemap from " ++ base⟩, ?_⟩
    have h1 : s ≠ 429 := by omega
    simp only [discoverLoop]
    rw [hs]
    simp [h1, statusIs5xx, h5]
  · intro u us s b hcl h5
    have h429 : s ≠ 429 := by omega
    have h200 : s ≠ 200 := by omega
    simp only [fetchChildSitemaps, fetchChildGo, hcl]
    simp [h429, h200]

/-- HTTP oracle for the C2 counterexample: a sitemap index whose first
child sitemap answers 500 and whose second answers 200. -/
def clientC2 : String → FetchOutcome := fun u =>
  if u = "https://x.com/sitemap.xml" then .resp 200 ("IDX")
  else if u = "https://x.com/c1.xml" then .resp 500 ("boom")
  else if u = "https://x.com/c2.xml" then .resp 200 ("SET2")
  else .exn

/-- Parser oracle for the C2 counterexample. -/
def fromstringC2 : String → Option (List XmlNode) := fun s =>
  if s = "IDX" then
    some [{ tag := "sitemap",
            childTexts := [("loc", some ("https://x.com/c1.xml"))] },
          { tag := "sitemap",
            childTexts := [("loc", some ("https://x.com/c2.xml"))] }]
  else if s = "SET2" then
    some [{ tag := "url", childTexts := [("loc", some ("https://x.com/a"))] }]
  else none

/-- C2 (counterexample): a child-sitemap fetch in the chain returns HTTP
500, yet `discover_sitemap` does not raise `DiscoveryError` — it returns
the URLs of the remaining child. -/
theorem discover_sitemap_child_5xx_not_fatal :
    discover_sitemap clientC2 fromstringC2 ("https://x.com")
      = Except.ok (some (["https://x.com/a"]))
    ∧ clientC2 ("https://x.com/c1.xml") = FetchOutcome.resp 500 ("boom") :=
  ⟨rfl, rfl⟩

/-- Oracle answering 503 to everything, for the C2 witness. -/
def client5xx : String → FetchOutcome := fun _ => .resp 503 ("oops")

/-- Parser oracle that always fails, for the C2 witness. -/
def fsNone : String → Option (List XmlNode) := fun _ => none

/-- Witness for C2 (amended) at concrete oracles. -/
theorem discover_5xx_behavior_witness :
    (∃ e, discover_sitemap client5xx fsNone ("https://x.com")
      = Except.error e)
    ∧ fetchChildSitemaps client5xx fsNone
        (["https://x.com/c1.xml", "https://x.com/c2.xml"])
      = fetchChildSitemaps client5xx fsNone (["https://x.com/c2.xml"]) := by
  constructor
  · exact (discover_5xx_behavior client5xx fsNone).1 ("https://x.com")
      ("/sitemap.xml")
      (["/sitemap_index.xml", "/sitemap1.xml", "/robots.txt"]) 503
      (by decide) (by decide)
  · exact (discover_5xx_behavior client5xx fsNone).2 ("https://x.com/c1.xml")
      (["https://x.com/c2.xml"]) 503 ("oops") rfl (by decide)

/-- C8: a fetched sitemap parsing to a non-empty URL list in which every
entry ends in `.xml` is classified as a sitemap index and the result is
delegated to the child-sitemap fetch, which concatenates the URL lists
parsed from each child; a list with a non-`.xml` entry is returned
directly. -/
theorem discover_index_detection (client : String → FetchOutcome)
    (fromstring : String → Option (List XmlNode)) :
    (∀ base path rest c urls,
      fetchSitemapContent client (urljoinAbs base path) path
        = (some c, some 200) →
      c ≠ "" →
      parse_sitemap_xml fromstring c = urls →
      urls ≠ [] →
      urls.all (fun u => endsWithS u (".xml")) = true →
      discoverLoop client fromstring base (path :: rest)
        = fetchChildSitemaps client fromstring urls)
    ∧ (∀ base path rest c urls,
      fetchSitemapContent client (urljoinAbs base path) path
        = (some c, some 200) →
      c ≠ "" →
      parse_sitemap_xml fromstring c = urls →
      urls ≠ [] →
      urls.all (fun u => endsWithS u (".xml")) = false →
      discoverLoop client fromstring base (path :: rest)
        = Except.ok (some urls))
    ∧ (∀ u1 u2 b1 b2,
      client u1 = FetchOutcome.resp 200 b1 →
      client u2 = FetchOutcome.resp 200 b2 →
      rateLimitPage b1 = false → rateLimitPage b2 = false →
      parse_sitemap_xml fromstring b1 ++ parse_sitemap_xml fromstring b2 ≠ [] →
      fetchChildSitemaps client fromstring ([u1, u2])
        = Except.ok (some (parse_sitemap_xml fromstring b1
            ++ parse_sitemap_xml fromstring b2))) := by
  refine ⟨?_, ?_, ?_⟩
  · intro base path rest c urls hf hc hp hne hall
    simp only [discoverLoop]
    rw [hf]
    simp [statusIs5xx, hc, hp, hne, hall]
  · intro base path rest c urls hf hc hp hne hall
    simp only [discoverLoop]
    rw [hf]
    simp [statusIs5xx, hc, hp, hne, hall]
  · intro u1 u2 b1 b2 h1 h2 hr1 hr2 hne
    simp only [fetchChildSitemaps, fetchChildGo, h1, h2]
    simp [hr1, hr2, hne]

/-- HTTP oracle for the C8 witness: an index with two children of three
page URLs each under `x.com`, and a mixed (non-index) sitemap under
`m.com`. -/
def client8 : String → FetchOutcome := fun u =>
  if u = "https://x.com/sitemap.xml" then .resp 200 ("IDX8")
  else if u = "https://x.com/s1.xml" then .resp 200 ("B81")
  else if u = "https://x.com/s2.xml" then .resp 200 ("B82")
  else if u = "https://m.com/sitemap.xml" then .resp 200 ("MIX8")
  else .exn

/-- Parser oracle for the C8 witness. -/
def fromstring8 : String → Option (List XmlNode) := fun s =>
  if s = "IDX8" then
    some [{ tag := "sitemap",
            childTexts := [("loc", some ("https://x.com/s1.xml"))] },
          { tag := "sitemap",
            childTexts := [("loc", some ("https://x.com/s2.xml"))] }]
  else if s = "B81" then
    some [{ tag := "url", childTexts := [("loc", some ("https://x.com/p1"))] },
          { tag := "url", childTexts := [("loc", some ("https://x.com/p2"))] },
          { tag := "url", childTexts := [("loc", some ("https://x.com/p3"))] }]
  else if s = "B82" then
    some [{ tag := "url", childTexts := [("loc", some ("https://x.com/q1"))] },
          { tag := "url", childTexts := [("loc", some ("https://x.com/q2"))] },
          { tag := "url", childTexts := [("loc", some ("https://x.com/q3"))] }]
  else if s = "MIX8" then
    some [{ tag := "url", childTexts := [("loc", some ("https://m.com/a"))] },
          { tag := "url", childTexts := [("loc", some ("https://m.com/b.xml"))] }]
  else none

/-- Witness for C8: the index with two children of three page URLs each
yields the six concatenated page URLs, not the two index URLs; the mixed
list is returned directly. -/
theorem discover_index_detection_witness :
    discover_sitemap client8 fromstring8 ("https://x.com")
      = Except.ok (some (["https://x.com/p1", "https://x.com/p2",
          "https://x.com/p3", "https://x.com/q1", "https://x.com/q2",
          "https://x.com/q3"]))
    ∧ discover_sitemap client8 fromstring8 ("https://m.com")
      = Except.ok (some (["https://m.com/a", "https://m.com/b.xml"])) := by
  constructor
  · have ha := (discover_index_detection client8 fromstring8).1
      ("https://x.com") ("/sitemap.xml")
      (["/sitemap_index.xml", "/sitemap1.xml", "/robots.txt"]) ("IDX8")
      (["https://x.com/s1.xml", "https://x.com/s2.xml"]) rfl (by decide) rfl
      (by decide) (by decide)
    have hc := (discover_index_detection client8 fromstring8).2.2
      ("https://x.com/s1.xml") ("https://x.com/s2.xml") ("B81") ("B82") rfl
      rfl (by decide) (by decide) (by decide)
    exact ha.trans (hc.trans rfl)
  · exact (discover_index_detection client8 fromstring8).2.1
      ("https://m.com") ("/sitemap.xml")
      (["/sitemap_index.xml", "/sitemap1.xml", "/robots.txt"]) ("MIX8")
      (["https://m.com/a", "https://m.com/b.xml"]) rfl (by decide) rfl
      (by decide) (by decide)

/- ### Claim theorems: markdown.py `chunk_markdown` -/

/-- A successful heading match concatenates back to its input. -/
theorem tryMatchH2_concat : ∀ {l m rest : List Char},
    tryMatchH2 l = some (m, rest) → m ++ rest = l := by
  intro l m rest h
  unfold tryMatchH2 at h
  split at h
  case _ tail =>
    split at h
    case _ rest2 heq =>
      split at h
      · simp at h
      case _ hne =>
        injection h with h2
        rw [Prod.mk.injEq] at h2
        obtain ⟨hm, hr⟩ := h2
        subst hm hr
        have htd := List.takeWhile_append_dropWhile
          (p := fun c => decide (c ≠ '\n')) (l := tail)
        rw [heq] at htd
        simp only [List.cons_append, List.append_assoc,
          List.singleton_append, List.nil_append]
        rw [htd]
    · simp at h
  · simp at h

/-- The capturing split partitions its input. -/
theorem flatL_splitH2Go (fuel : Nat) :
    ∀ acc cs, flatL (splitH2Go fuel acc cs) = acc ++ cs := by
  induction fuel with
  | zero => intro acc cs; simp [splitH2Go, flatL]
  | succ n ih =>
    intro acc cs
    cases cs with
    | nil => simp [splitH2Go, flatL]
    | cons c rest =>
      cases htm : tryMatchH2 (c :: rest) with
      | none => simp [splitH2Go, htm, ih]
      | some pr =>
        obtain ⟨m, r2⟩ := pr
        have hc := tryMatchH2_concat htm
        simp [splitH2Go, htm, flatL, ih]
        exact hc

/-- Joining `String.mk` pieces is `String.mk` of the flattened pieces. -/
theorem concatAll_map_mk (L : List (List Char)) :
    concatAll (L.map String.mk) = String.mk (flatL L) := by
  induction L with
  | nil => rfl
  | cons l rest ih =>
    simp [concatAll, flatL, ih]
    rfl

/-- The pieces of the heading split concatenate to the original string. -/
theorem concatAll_splitH2 (s : String) : concatAll (splitH2 s) = s := by
  unfold splitH2
  rw [concatAll_map_mk, flatL_splitH2Go]
  cases s with
  | mk d => simp

/-- `concatAll` is a monoid morphism on list append. -/
theorem concatAll_append (a b : List String) :
    concatAll (a ++ b) = concatAll a ++ concatAll b := by
  induction a with
  | nil => simp [concatAll, String.empty_append]
  | cons s rest ih => simp [concatAll, ih, String.append_assoc]

/-- Content accounting of one section step when the section itself fits
the budget: the step moves the section into the state without losing or
duplicating text. -/
theorem processSection_contents (doc : MarkdownDoc) (max_size fm : Nat)
    (st : ChunkState) (s : String) (h : s.utf8ByteSize + fm ≤ max_size) :
    concatAll (((processSection doc max_size fm st s).chunks).map
        MarkdownDoc.content)
      ++ concatAll ((processSection doc max_size fm st s).current_content)
    = concatAll ((st.chunks).map MarkdownDoc.content)
      ++ (concatAll st.current_content ++ s) := by
  unfold processSection
  have h1 : ¬ (s.utf8ByteSize + fm > max_size) := by omega
  rw [if_neg h1]
  by_cases h2 : st.current_size + s.utf8ByteSize + fm > max_size
  · rw [if_pos h2]
    by_cases h3 : st.current_content = []
    · simp [h3, concatAll, String.empty_append, String.append_empty]
    · simp [h3, concatAll, concatAll_append, mkChunk, String.append_empty,
        String.empty_append, String.append_assoc]
  · rw [if_neg h2]
    simp [concatAll_append, concatAll, String.append_empty,
      String.append_assoc]

/-- Content accounting over the whole section fold. -/
theorem foldl_processSection (doc : MarkdownDoc) (max_size fm : Nat)
    (secs : List String) :
    ∀ st, (∀ s ∈ secs, s.utf8ByteSize + fm ≤ max_size) →
      concatAll (((secs.foldl (processSection doc max_size fm) st).chunks).map
          MarkdownDoc.content)
        ++ concatAll
            ((secs.foldl (processSection doc max_size fm) st).current_content)
      = concatAll ((st.chunks).map MarkdownDoc.content)
        ++ (concatAll st.current_content ++ concatAll secs) := by
  induction secs with
  | nil => intro st _; simp [concatAll, String.append_empty]
  | cons s rest ih =>
    intro st hall
    have hs : s.utf8ByteSize + fm ≤ max_size :=
      hall s (List.mem_cons_self s rest)
    have hrest : ∀ q ∈ rest, q.utf8ByteSize + fm ≤ max_size := by
      intro q hq; exact hall q (List.mem_cons_of_mem s hq)
    rw [List.foldl_cons, ih (processSection doc max_size fm st s) hrest,
      ← String.append_assoc, processSection_contents doc max_size fm st s hs]
    simp [concatAll, String.append_assoc]

/-- C5 (amended): when no single `## `-section exceeds the byte budget net
of the frontmatter overhead — so the paragraph fallback, which drops the
blank-line separators at its chunk boundaries, is never taken —
concatenating the chunk contents in order reproduces the original content
exactly. -/
theorem chunk_markdown_concat (doc : MarkdownDoc) (max_size : Nat)
    (hsec : ∀ s ∈ splitH2 doc.content,
      s.utf8ByteSize + fmSize doc ≤ max_size) :
    concatAll ((chunk_markdown doc max_size).map MarkdownDoc.content)
      = doc.content := by
  unfold chunk_markdown
  by_cases hfull :
      (format_markdown_with_frontmatter doc).utf8ByteSize ≤ max_size
  · rw [if_pos hfull]
    simp [concatAll, String.append_empty]
  · rw [if_neg hfull]
    have hinv := foldl_processSection doc max_size (fmSize doc)
      (splitH2 doc.content)
      { chunks := [], current_content := [], current_size := 0,
        chunk_num := 1 } hsec
    simp only [concatAll, List.map_nil, String.empty_append] at hinv
    rw [concatAll_splitH2] at hinv
    by_cases hcc :
        ((splitH2 doc.content).foldl
          (processSection doc max_size (fmSize doc))
          { chunks := [], current_content := [], current_size := 0,
            chunk_num := 1 }).current_content ≠ []
    · rw [if_pos hcc]
      simp only [List.map_append, List.map_cons, List.map_nil,
        concatAll_append, concatAll, String.append_empty]
      exact hinv
    · rw [if_neg hcc]
      push_neg at hcc
      rw [hcc] at hinv
      simp only [concatAll, String.append_empty] at hinv
      exact hinv

/-- Document for the C5 counterexample: one section of two paragraphs,
each too large to share a chunk with the other. -/
def dC5bad : MarkdownDoc :=
  { content := "aaaaaaaaaa\n\nbbbbbbbbbb", source_url := "u",
    provider := "p", topic := "t", scraped_at := "d" }

/-- C5 (counterexample): the serialized size of `dC5bad` (73 bytes)
exceeds the budget 60, and the chunker splits its single oversized section
at the paragraph boundary, dropping the `"\n\n"` separator — so the chunk
contents concatenate to `"aaaaaaaaaabbbbbbbbbb"`, not the original
content. -/
theorem chunk_markdown_concat_counterexample :
    60 < (format_markdown_with_frontmatter dC5bad).utf8ByteSize
    ∧ concatAll ((chunk_markdown dC5bad 60).map MarkdownDoc.content)
      ≠ dC5bad.content := by
  exact ⟨by decide, by decide⟩

/-- Document for the C5 witness: oversized in total, every section small. -/
def dC5w : MarkdownDoc :=
  { content := "abc\n## h\ndef", source_url := "u", provider := "p",
    topic := "t", scraped_at := "d" }

/-- Witness for C5 (amended) at a concrete document that chunks into two
parts at the heading boundary. -/
theorem chunk_markdown_concat_witness :
    concatAll ((chunk_markdown dC5w 60).map MarkdownDoc.content)
      = dC5w.content :=
  chunk_markdown_concat dC5w 60 (by decide)

/-- Document for the C1 failing input: a single 120-byte paragraph with no
heading and no paragraph break, serialized size 171 bytes. -/
def dC1 : MarkdownDoc :=
  { content := String.mk (List.replicate 120 'a'), source_url := "u",
    provider := "p", topic := "t", scraped_at := "d" }

set_option maxRecDepth 8000

/-- C1 (code evaluated at the failing input): for budget 50, the document
is oversized (171 bytes serialized), yet `chunk_markdown` emits a chunk
whose own serialized size (171 bytes) exceeds the budget — a paragraph
larger than the budget is passed through whole, so the documented bound
does not hold. -/
theorem chunk_markdown_oversized_chunk :
    50 < (format_markdown_with_frontmatter dC1).utf8ByteSize
    ∧ ∃ c ∈ chunk_markdown dC1 50,
        50 < (format_markdown_with_frontmatter c).utf8ByteSize := by
  exact ⟨by decide, by decide⟩

/- ### Claim theorems: base.py `scrape_docs` -/

/-- When every crawl outcome fails, the loop only increments the error
count: no chunk of state changes, no write happens. -/
theorem scrapeGo_all_failed (hash : String → String) (now : String)
    (items : List (String × CrawlOutcome)) :
    ∀ a w e trace, (∀ p ∈ items, failedOutcome p.2 = true) →
      scrapeGo hash now a w e trace items
        = (.ok (w, e + items.length, a), trace) := by
  induction items with
  | nil => intro a w e trace _; simp [scrapeGo]
  | cons p rest ih =>
    intro a w e trace hall
    have hp : failedOutcome p.2 = true := hall p (List.mem_cons_self p rest)
    have hrest : ∀ q ∈ rest, failedOutcome q.2 = true := by
      intro q hq; exact hall q (List.mem_cons_of_mem p hq)
    have harith : e + 1 + rest.length = e + (rest.length + 1) := by omega
    obtain ⟨url, o⟩ := p
    cases o with
    | exn =>
      simp only [scrapeGo]
      rw [ih a w (e + 1) trace hrest, harith]
      simp
    | res r =>
      simp only [failedOutcome, Bool.and_eq_true, Bool.not_eq_true',
        Bool.or_eq_true, decide_eq_true_eq] at hp
      obtain ⟨hrl, hdisj⟩ := hp
      by_cases hs : r.success = false
      · simp only [scrapeGo, hrl, Bool.false_eq_true, if_false, hs,
          Bool.not_false, if_true]
        rw [ih a w (e + 1) trace hrest, harith]
        simp
      · have hs2 : r.success = true := by
          revert hs; cases r.success <;> simp
        have hcn : contentOf r = none := by
          rcases hdisj with h | h
          · rw [hs2] at h; simp at h
          · exact h
        simp only [scrapeGo, hrl, Bool.false_eq_true, if_false, hs2,
          Bool.not_true, Bool.true_eq_false, hcn]
        rw [ih a w (e + 1) trace hrest, harith]
        simp

/-- C7: for a non-empty batch in which every URL fails to produce usable
content (crawl exception, unsuccessful result, or no markdown content —
none rate-limited), `scrape_docs` raises `DocsScrapeError` and
`archive.write` is never called (the write trace is empty). -/
theorem scrape_docs_all_failed (hash : String → String) (now : String)
    (a : DocsArchive) (items : List (String × CrawlOutcome))
    (hne : items ≠ [])
    (hall : ∀ p ∈ items, failedOutcome p.2 = true) :
    (∃ err, (scrape_docs hash now a items).1 = Except.error err)
    ∧ (scrape_docs hash now a items).2 = [] := by
  unfold scrape_docs
  rw [if_neg hne, scrapeGo_all_failed hash now items a 0 0 [] hall]
  simp

/-- Failing outcome for the C7 witness: unsuccessful crawl. -/
def rFailA : CrawlResult :=
  { error_message := none, success := false, fit_markdown := none,
    raw_markdown := none, title := "", etag := none }

/-- Failing outcome for the C7 witness: successful crawl with no usable
markdown (short fit, blank raw), not rate-limited. -/
def rFailC : CrawlResult :=
  { error_message := some ("boom"), success := true,
    fit_markdown := some ("short"), raw_markdown := some ("   "),
    title := "T", etag := some ("E") }

/-- Concrete all-failed batch for the C7 witness. -/
def failItems : List (String × CrawlOutcome) :=
  [("https://x.com/a", .res rFailA), ("https://x.com/b", .exn),
   ("https://x.com/c", .res rFailC)]

/-- Witness for C7 at a concrete all-failed batch. -/
theorem scrape_docs_all_failed_witness :
    (∃ err, (scrape_docs hashId ("t") DocsArchive.init failItems).1
      = Except.error err)
    ∧ (scrape_docs hashId ("t") DocsArchive.init failItems).2 = [] :=
  scrape_docs_all_failed hashId ("t") DocsArchive.init failItems
    (by decide) (by decide)
